import Mathlib

/-!
# Verification of the PyCasia GNT record decoder (`src/CASIA.py`)

Shallow embedding of `CASIA.load_gnt_file` (src/CASIA.py, lines 148-165) and of
the name-resolution behaviour of `CASIA.__init__` / `CASIA.load_dataset`.

Modelling conventions:

* A byte stream is a `List Nat` (each element a byte value read from the file).
* `f.read(n)` returns up to `n` bytes: modelled as `s.take n`, with the rest of
  the stream `s.drop n`.
* `struct.unpack(fmt, buf)` raises `struct.error` unless `buf` has exactly the
  size `fmt` demands; modelled by the `unpack*` functions returning
  `Except DecodeError _` with `DecodeError.structError` on a size mismatch.
* `codecs.decode(two_bytes, "gb2312")` is a call into Python's codec library,
  external to this repository; it is modelled by an arbitrary parameter
  `dec : Nat → Nat → Option String` taking the two raw label bytes, `none`
  meaning `UnicodeDecodeError` (modelled as `DecodeError.labelDecodeError`).
  `gb2312Sample` below instantiates it with the one concrete mapping the spec
  cites (0xC4 0xE3 ↦ "你").
* `np.array(photo_bytes).reshape(height, width)` is modelled by `npReshape`:
  it fails (`ValueError`) unless the flat data has exactly `height * width`
  elements, and otherwise produces `height` rows (outer dimension) of `width`
  pixels each, row-major.
* `scipy.misc.toimage(...)` (line 163) is modelled by `toimageL`, following
  the code path its scipy source actually takes on this input.
  `np.array` of a tuple of Python ints is an `int64` array (`float64` when
  the tuple is empty), never `uint8`, so `toimage`'s default `mode=None`
  2-D branch always routes the data through `bytescale`, which
  (a) on a zero-size array (width=0 or height=0) evaluates `data.min()` and
  raises `ValueError` (zero-size reduction), and
  (b) otherwise linearly rescales per record: with `cmin`/`cmax` the array's
  min/max and `cscale = cmax - cmin` (replaced by 1 when zero), each value
  `v` becomes `uint8(clip((v - cmin) * (255 / cscale), 0, 255) + 0.5)`,
  truncated.  The resulting PIL image has size width×height and exactly
  these rescaled bytes, row-major; the embedded record keeps that grid
  together with the header `width` and `height`.  The float64 arithmetic is
  modelled as exact rational arithmetic; on every concrete input evaluated
  in the theorems below the float64 computation is exact (all intermediate
  values are small dyadic rationals), so model and program agree there.
* The Python generator yields records lazily and an exception ends it; the
  embedding returns the pair of (records yielded before termination, how the
  loop ended): `none` = clean `StopIteration`, `some e` = the raised error.
-/

namespace PyCasia

/-- The exceptions the decode loop can raise, classified:
`structError` is `struct.error` from any short `struct.unpack` buffer,
`labelDecodeError` is `UnicodeDecodeError` from `decode(..., "gb2312")`,
`valueError` is `ValueError`, raised by `np.reshape` on a size mismatch
(unreachable here) and by `bytescale` inside `scipy.misc.toimage` when it
reduces (`.min()`) a zero-size array, i.e. when `width*height = 0`. -/
inductive DecodeError where
  | structError
  | labelDecodeError
  | valueError
  deriving Repr, DecidableEq

/-- One yielded record: the decoded label text and the image, exposed as a
grid of `height` rows of `width` byte intensities (the `reshape(height,
width)` result), together with those dimensions. -/
structure GntRecord where
  label : String
  width : Nat
  height : Nat
  image : List (List Nat)
  deriving Repr, DecidableEq

/-- `struct.unpack("<I", buf)`: unsigned 32-bit little-endian; `struct.error`
unless `buf` is exactly 4 bytes. -/
def unpackU32LE : List Nat → Except DecodeError Nat
  | [b0, b1, b2, b3] => .ok (b0 + 256 * b1 + 65536 * b2 + 16777216 * b3)
  | _ => .error .structError

/-- `struct.unpack("<H", buf)`: unsigned 16-bit little-endian; `struct.error`
unless `buf` is exactly 2 bytes. -/
def unpackU16LE : List Nat → Except DecodeError Nat
  | [b0, b1] => .ok (b0 + 256 * b1)
  | _ => .error .structError

/-- `struct.unpack(">cc", buf)`: two independent single-byte code units, not a
16-bit integer; `struct.error` unless `buf` is exactly 2 bytes. -/
def unpackCC : List Nat → Except DecodeError (Nat × Nat)
  | [c0, c1] => .ok (c0, c1)
  | _ => .error .structError

/-- `struct.unpack("{n}B", buf)`: `n` unsigned bytes; `struct.error` unless
`buf` is exactly `n` bytes. -/
def unpackBytes (n : Nat) (buf : List Nat) : Except DecodeError (List Nat) :=
  if buf.length = n then .ok buf else .error .structError

/-- Row-major split of flat data into `h` rows of `w` elements each (the shape
of `reshape(h, w)` on data of size `h * w`). -/
def splitRows (h w : Nat) (data : List Nat) : List (List Nat) :=
  match h with
  | 0 => []
  | Nat.succ h => data.take w :: splitRows h w (data.drop w)

/-- `np.array(data).reshape(h, w)`: `ValueError` unless the flat size is
exactly `h * w`, otherwise the row-major `h × w` grid. -/
def npReshape (h w : Nat) (data : List Nat) : Except DecodeError (List (List Nat)) :=
  if data.length = h * w then .ok (splitRows h w data) else .error .valueError

/-- One pixel of `scipy.misc.bytescale` (scipy 1.1.0) on non-`uint8` data
with the default arguments `toimage` passes (`high=255`, `low=0`,
`cmin`/`cmax` the array minimum/maximum): `cscale = cmax - cmin`, replaced
by 1 when zero; `scale = 255 / cscale`; `bytedata = (v - cmin) * scale`;
then `(bytedata.clip(0, 255) + 0.5).astype(uint8)` — truncation of a value
in `[0.5, 255.5]`, hence a plain floor with no `uint8` wrap-around.  The
float64 arithmetic is modelled as exact rational arithmetic (see the header
note). -/
def bytescalePixel (cmin cmax v : Nat) : Nat :=
  let cscale : ℚ := if cmax = cmin then 1 else (cmax : ℚ) - (cmin : ℚ)
  (⌊min 255 (max 0 (((v : ℚ) - (cmin : ℚ)) * (255 / cscale))) + 1 / 2⌋).toNat

/-- `scipy.misc.toimage` (line 163) on the 2-D `int64`/`float64` reshape
result, default arguments: the shape is always valid (2-D), the dtype is
never `uint8`, so `bytescale` runs with `cmin = data.min()` and
`cmax = data.max()` — a `ValueError` on a zero-size array — and the produced
width×height PIL `'L'` image holds exactly the rescaled bytes, row-major. -/
def toimageL (grid : List (List Nat)) : Except DecodeError (List (List Nat)) :=
  match grid.flatten.min?, grid.flatten.max? with
  | some cmin, some cmax => .ok (grid.map (List.map (bytescalePixel cmin cmax)))
  | _, _ => .error .valueError

/-- Outcome of one pass through the `while True` body: either the clean
`break` on `packed_length == b''`, or a yielded record plus the stream that
remains after it. -/
inductive StepResult where
  | eof
  | record (r : GntRecord) (rest : List Nat)
  deriving Repr

/-- One iteration of the loop body of `CASIA.load_gnt_file`
(src/CASIA.py lines 150-165), line by line:
`packed_length = f.read(4)`; `break` if it is `b''`;
`length = struct.unpack("<I", packed_length)[0]` (value unused afterwards);
`raw_label = struct.unpack(">cc", f.read(2))`;
`width = struct.unpack("<H", f.read(2))[0]`;
`height = struct.unpack("<H", f.read(2))[0]`;
`photo_bytes = struct.unpack("{height*width}B", f.read(height * width))`;
`label = decode(raw_label[0] + raw_label[1], encoding="gb2312")`;
`image = toimage(np.array(photo_bytes).reshape(height, width))` — the
reshape first (`npReshape`), then the `toimage` conversion (`toimageL`);
`yield image, label`. -/
def readRecord (dec : Nat → Nat → Option String) (s : List Nat) :
    Except DecodeError StepResult :=
  if s.take 4 = [] then .ok .eof else
  match unpackU32LE (s.take 4) with
  | .error e => .error e
  | .ok _length =>
    match unpackCC ((s.drop 4).take 2) with
    | .error e => .error e
    | .ok (b1, b2) =>
      match unpackU16LE (((s.drop 4).drop 2).take 2) with
      | .error e => .error e
      | .ok width =>
        match unpackU16LE ((((s.drop 4).drop 2).drop 2).take 2) with
        | .error e => .error e
        | .ok height =>
          match unpackBytes (height * width)
              (((((s.drop 4).drop 2).drop 2).drop 2).take (height * width)) with
          | .error e => .error e
          | .ok photo_bytes =>
            match dec b1 b2 with
            | none => .error .labelDecodeError
            | some label =>
              match npReshape height width photo_bytes with
              | .error e => .error e
              | .ok grid =>
                match toimageL grid with
                | .error e => .error e
                | .ok image =>
                  .ok (.record ⟨label, width, height, image⟩
                        (((((s.drop 4).drop 2).drop 2).drop 2).drop (height * width)))

/-- A successful `unpackU16LE` means the buffer held exactly 2 bytes. -/
theorem unpackU16LE_ok_length {buf : List Nat} {v : Nat}
    (h : unpackU16LE buf = .ok v) : buf.length = 2 := by
  unfold unpackU16LE at h
  split at h
  · simp
  · exact absurd h (by simp)

/-- A successful `unpackBytes n` means the buffer held exactly `n` bytes and
is returned unchanged. -/
theorem unpackBytes_ok {n : Nat} {buf out : List Nat}
    (h : unpackBytes n buf = .ok out) : buf.length = n ∧ out = buf := by
  unfold unpackBytes at h
  split at h
  · refine ⟨by assumption, ?_⟩
    injection h with h
    exact h.symm
  · exact absurd h (by simp)

/-- A successful record step consumes at least the 10 header bytes. -/
theorem readRecord_length (dec : Nat → Nat → Option String) (s : List Nat)
    (r : GntRecord) (rest : List Nat)
    (hres : readRecord dec s = .ok (.record r rest)) :
    rest.length + 10 ≤ s.length := by
  unfold readRecord at hres
  split at hres
  · simp at hres
  · rename_i hne
    split at hres
    · simp at hres
    · rename_i hlen
      split at hres
      · simp at hres
      · rename_i b1 b2 hcc
        split at hres
        · simp at hres
        · rename_i w hw
          split at hres
          · simp at hres
          · rename_i hgt hh
            split at hres
            · simp at hres
            · rename_i photo hbytes
              split at hres
              · simp at hres
              · rename_i lbl hdec
                split at hres
                · simp at hres
                · rename_i grid hgrid
                  split at hres
                  · simp at hres
                  · rename_i img himg
                    have hs3 := unpackU16LE_ok_length hh
                    have hbl := (unpackBytes_ok hbytes).1
                    have hrest : rest = ((((s.drop 4).drop 2).drop 2).drop 2).drop (hgt * w) := by
                      injection hres with hres
                      injection hres with hr hrest
                      exact hrest.symm
                    subst hrest
                    simp only [List.length_drop, List.length_take] at *
                    omega

/-- A successful record step strictly shrinks the stream. -/
theorem readRecord_lt (dec : Nat → Nat → Option String) (s : List Nat)
    (r : GntRecord) (rest : List Nat)
    (hres : readRecord dec s = .ok (.record r rest)) :
    rest.length < s.length := by
  have := readRecord_length dec s r rest hres
  omega

/-- The whole generator `CASIA.load_gnt_file` on a byte stream: the list of
records yielded before the loop ended, paired with `none` for the clean
`break` at end-of-stream or `some e` for the exception that aborted it. -/
def load_gnt_file (dec : Nat → Nat → Option String) (s : List Nat) :
    List GntRecord × Option DecodeError :=
  match hstep : readRecord dec s with
  | .error e => ([], some e)
  | .ok .eof => ([], none)
  | .ok (.record r rest) =>
      ((r :: (load_gnt_file dec rest).1), (load_gnt_file dec rest).2)
termination_by s.length
decreasing_by
  all_goals exact readRecord_lt dec s r rest hstep

/-- Unfolding `load_gnt_file` when the step raised. -/
theorem load_gnt_file_error (dec : Nat → Nat → Option String) (s : List Nat)
    (e : DecodeError) (hres : readRecord dec s = .error e) :
    load_gnt_file dec s = ([], some e) := by
  rw [load_gnt_file.eq_def]
  split
  · rename_i e' h
    rw [hres] at h
    injection h with h
    rw [h]
  · rename_i h
    rw [hres] at h
    exact absurd h (by simp)
  · rename_i r rest h
    rw [hres] at h
    exact absurd h (by simp)

/-- Unfolding `load_gnt_file` at the clean end-of-stream `break`. -/
theorem load_gnt_file_eof (dec : Nat → Nat → Option String) (s : List Nat)
    (hres : readRecord dec s = .ok .eof) :
    load_gnt_file dec s = ([], none) := by
  rw [load_gnt_file.eq_def]
  split
  · rename_i e h
    rw [hres] at h
    exact absurd h (by simp)
  · rfl
  · rename_i r rest h
    rw [hres] at h
    simp at h

/-- Unfolding `load_gnt_file` when a record was yielded. -/
theorem load_gnt_file_record (dec : Nat → Nat → Option String) (s : List Nat)
    (r : GntRecord) (rest : List Nat)
    (hres : readRecord dec s = .ok (.record r rest)) :
    load_gnt_file dec s =
      (r :: (load_gnt_file dec rest).1, (load_gnt_file dec rest).2) := by
  rw [load_gnt_file.eq_def]
  split
  · rename_i e h
    rw [hres] at h
    exact absurd h (by simp)
  · rename_i h
    rw [hres] at h
    simp at h
  · rename_i r' rest' h
    rw [hres] at h
    injection h with h
    injection h with hr hrest
    subst hr
    subst hrest
    rfl

/-- Little-endian 2-byte encoding of a 16-bit value (spec §6 layout). -/
def u16le (n : Nat) : List Nat := [n % 256, n / 256 % 256]

/-- Little-endian 4-byte encoding of a 32-bit value (spec §6 layout). -/
def u32le (n : Nat) : List Nat :=
  [n % 256, n / 256 % 256, n / 65536 % 256, n / 16777216 % 256]

/-- A synthetic source record before encoding: the advisory length-field
value, the two raw GB2312 label bytes, the dimensions, and the flat pixel
payload. -/
structure RawRecord where
  lenField : Nat
  b1 : Nat
  b2 : Nat
  width : Nat
  height : Nat
  payload : List Nat

/-- The GNT on-disk layout of one record (spec §6): 4-byte little-endian
length field, 2 raw label bytes, 2-byte little-endian width, 2-byte
little-endian height, then the `width*height` payload bytes. -/
def encodeRaw (r : RawRecord) : List Nat :=
  u32le r.lenField ++ [r.b1, r.b2] ++ u16le r.width ++ u16le r.height ++ r.payload

/-- Well-formedness of a synthetic record with respect to a label decoder:
the dimensions fit in 16 bits, the payload has exactly `height * width`
bytes, it is non-empty (a zero-size pixel array makes `toimage` raise), and
the two label bytes decode. -/
def wellFormed (dec : Nat → Nat → Option String) (r : RawRecord) : Prop :=
  r.width < 65536 ∧ r.height < 65536 ∧ r.payload.length = r.height * r.width ∧
    r.payload ≠ [] ∧ (dec r.b1 r.b2).isSome

/-- The record the decoder yields for a well-formed synthetic record: the
decoded label and the `height × width` grid of the per-record bytescaled
payload (the PIL image's bytes), not the raw payload bytes. -/
def decodedOf (dec : Nat → Nat → Option String) (r : RawRecord) : GntRecord :=
  { label := (dec r.b1 r.b2).getD ""
    width := r.width
    height := r.height
    image := (splitRows r.height r.width r.payload).map
      (List.map (bytescalePixel (r.payload.min?.getD 0) (r.payload.max?.getD 0))) }

/-- The GB2312 decoding the source invokes via `codecs.decode(..., "gb2312")`
lives in Python's codec library, outside this repository, so the theorems are
generic in the decode function. This concrete instance holds the one mapping
the spec cites: bytes 0xC4 0xE3 are the GB2312 encoding of "你". -/
def gb2312Sample (b1 b2 : Nat) : Option String :=
  if b1 = 196 ∧ b2 = 227 then some "你" else none

/-- Evaluation of one loop iteration on an encoded record followed by any
remaining stream: all header fields parse back, exactly the payload bytes are
consumed, and the outcome is decided by the label decoder and the `toimage`
conversion alone (the value of the 4-byte length field never matters). -/
theorem readRecord_encoded (dec : Nat → Nat → Option String)
    (a b c d b1 b2 w hgt : Nat) (payload rest : List Nat)
    (hw : w < 65536) (hh : hgt < 65536) (hp : payload.length = hgt * w) :
    readRecord dec ([a, b, c, d] ++ [b1, b2] ++ u16le w ++ u16le hgt ++ payload ++ rest) =
      match dec b1 b2 with
      | none => Except.error DecodeError.labelDecodeError
      | some lbl =>
          match toimageL (splitRows hgt w payload) with
          | .error e => Except.error e
          | .ok img => Except.ok (StepResult.record ⟨lbl, w, hgt, img⟩ rest) := by
  have t4 : ([a, b, c, d] ++ ([b1, b2] ++ (u16le w ++ (u16le hgt ++ (payload ++ rest))))).take 4
      = [a, b, c, d] := List.take_left' rfl
  have d4 : ([a, b, c, d] ++ ([b1, b2] ++ (u16le w ++ (u16le hgt ++ (payload ++ rest))))).drop 4
      = [b1, b2] ++ (u16le w ++ (u16le hgt ++ (payload ++ rest))) := List.drop_left' rfl
  have t2a : ([b1, b2] ++ (u16le w ++ (u16le hgt ++ (payload ++ rest)))).take 2 = [b1, b2] :=
    List.take_left' rfl
  have d2a : ([b1, b2] ++ (u16le w ++ (u16le hgt ++ (payload ++ rest)))).drop 2
      = u16le w ++ (u16le hgt ++ (payload ++ rest)) := List.drop_left' rfl
  have t2b : (u16le w ++ (u16le hgt ++ (payload ++ rest))).take 2 = u16le w :=
    List.take_left' rfl
  have d2b : (u16le w ++ (u16le hgt ++ (payload ++ rest))).drop 2
      = u16le hgt ++ (payload ++ rest) := List.drop_left' rfl
  have t2c : (u16le hgt ++ (payload ++ rest)).take 2 = u16le hgt := List.take_left' rfl
  have d2c : (u16le hgt ++ (payload ++ rest)).drop 2 = payload ++ rest := List.drop_left' rfl
  have tp : (payload ++ rest).take (hgt * w) = payload := List.take_left' hp
  have dp : (payload ++ rest).drop (hgt * w) = rest := List.drop_left' hp
  have hwv : w % 256 + 256 * (w / 256 % 256) = w := by omega
  have hhv : hgt % 256 + 256 * (hgt / 256 % 256) = hgt := by omega
  unfold readRecord
  simp only [List.append_assoc]
  rw [t4, d4]
  cases hdec : dec b1 b2 with
  | none =>
    simp [t2a, d2a, t2b, d2b, t2c, d2c, u16le, unpackU32LE, unpackCC, unpackU16LE,
      unpackBytes, npReshape, hwv, hhv, tp, dp, hp, hdec]
  | some lbl =>
    simp [t2a, d2a, t2b, d2b, t2c, d2c, u16le, unpackU32LE, unpackCC, unpackU16LE,
      unpackBytes, npReshape, hwv, hhv, tp, dp, hp, hdec]

/-- Flattening the row-major grid gives back the flat payload. -/
theorem splitRows_flatten (h w : Nat) (data : List Nat) (hd : data.length = h * w) :
    (splitRows h w data).flatten = data := by
  induction h generalizing data with
  | zero =>
    simp only [Nat.zero_mul] at hd
    simp [splitRows, (List.length_eq_zero.mp hd).symm]
  | succ n ih =>
    have hdrop : (data.drop w).length = n * w := by
      simp only [List.length_drop, hd, Nat.succ_mul]
      omega
    simp [splitRows, ih (data.drop w) hdrop]

/-- The grid has exactly `h` rows (the outer dimension is the height). -/
theorem splitRows_length (h w : Nat) (data : List Nat) :
    (splitRows h w data).length = h := by
  induction h generalizing data with
  | zero => rfl
  | succ n ih => simp [splitRows, ih]

/-- Every row of the grid has exactly `w` pixels (the inner dimension is the
width). -/
theorem splitRows_row_length (h w : Nat) (data : List Nat) (hd : data.length = h * w) :
    ∀ row ∈ splitRows h w data, row.length = w := by
  induction h generalizing data with
  | zero => simp [splitRows]
  | succ n ih =>
    intro row hrow
    simp only [splitRows, List.mem_cons] at hrow
    rcases hrow with rfl | hrow
    · have hle : w ≤ data.length := by
        rw [hd, Nat.succ_mul]
        omega
      simp [List.length_take, Nat.min_eq_left hle]
    · have hdrop : (data.drop w).length = n * w := by
        simp only [List.length_drop, hd, Nat.succ_mul]
        omega
      exact ih (data.drop w) hdrop row hrow

/-- `readRecord_encoded` phrased on `encodeRaw`. -/
theorem readRecord_encodeRaw (dec : Nat → Nat → Option String) (r : RawRecord)
    (tail : List Nat) (hw : r.width < 65536) (hh : r.height < 65536)
    (hp : r.payload.length = r.height * r.width) :
    readRecord dec (encodeRaw r ++ tail) =
      match dec r.b1 r.b2 with
      | none => Except.error DecodeError.labelDecodeError
      | some lbl =>
          match toimageL (splitRows r.height r.width r.payload) with
          | .error e => Except.error e
          | .ok img =>
              Except.ok (StepResult.record ⟨lbl, r.width, r.height, img⟩ tail) := by
  have hs : encodeRaw r ++ tail =
      [r.lenField % 256, r.lenField / 256 % 256, r.lenField / 65536 % 256,
        r.lenField / 16777216 % 256] ++ [r.b1, r.b2] ++ u16le r.width ++
        u16le r.height ++ r.payload ++ tail := by
    simp [encodeRaw, u32le, List.append_assoc]
  rw [hs, readRecord_encoded dec _ _ _ _ r.b1 r.b2 r.width r.height r.payload tail hw hh hp]

/-- On the empty stream `f.read(4)` returns `b''` at once, so the loop breaks
cleanly with no records. -/
theorem load_gnt_file_nil (dec : Nat → Nat → Option String) :
    load_gnt_file dec [] = ([], none) :=
  load_gnt_file_eof dec [] rfl

/-- On a non-empty grid whose flat data is the payload, `toimageL` succeeds
and maps every pixel through `bytescale` with the payload's min and max. -/
theorem toimageL_splitRows (h w : Nat) (payload : List Nat)
    (hp : payload.length = h * w) (hne : payload ≠ []) :
    toimageL (splitRows h w payload) =
      .ok ((splitRows h w payload).map
        (List.map (bytescalePixel (payload.min?.getD 0) (payload.max?.getD 0)))) := by
  obtain ⟨x, xs, rfl⟩ : ∃ x xs, payload = x :: xs := by
    cases payload with
    | nil => exact absurd rfl hne
    | cons x xs => exact ⟨x, xs, rfl⟩
  unfold toimageL
  rw [splitRows_flatten h w _ hp]
  simp [List.min?, List.max?]

/-- `bytescale` sends the array minimum to 0: `(cmin - cmin) * scale = 0`,
and `uint8(0 + 0.5)` truncates to 0. -/
theorem bytescalePixel_min_val (cmin cmax : Nat) :
    bytescalePixel cmin cmax cmin = 0 := by
  unfold bytescalePixel
  rcases eq_or_ne cmax cmin with rfl | hne
  · norm_num [min_def, max_def]
  · simp only [if_neg hne]
    norm_num [min_def, max_def]

/-- `bytescale` sends the array maximum to 255 when the range is non-trivial:
`(cmax - cmin) * (255 / (cmax - cmin)) = 255`, and `uint8(255 + 0.5)`
truncates to 255. -/
theorem bytescalePixel_max_val (cmin cmax : Nat) (hlt : cmin < cmax) :
    bytescalePixel cmin cmax cmax = 255 := by
  unfold bytescalePixel
  have hne : cmax ≠ cmin := Nat.ne_of_gt hlt
  have hq : ((cmax : ℚ) - (cmin : ℚ)) ≠ 0 := by
    have hc : (cmin : ℚ) < (cmax : ℚ) := by exact_mod_cast hlt
    linarith
  have h255 : ((cmax : ℚ) - (cmin : ℚ)) * (255 / ((cmax : ℚ) - (cmin : ℚ))) = 255 := by
    field_simp
  simp only [if_neg hne]
  rw [h255]
  norm_num [min_def, max_def]
  rfl

/-- Decoding a well-formed encoded record followed by anything yields that
record and continues on the rest. -/
theorem load_gnt_file_cons (dec : Nat → Nat → Option String) (r : RawRecord)
    (tail : List Nat) (hr : wellFormed dec r) :
    load_gnt_file dec (encodeRaw r ++ tail) =
      (decodedOf dec r :: (load_gnt_file dec tail).1, (load_gnt_file dec tail).2) := by
  obtain ⟨hw, hh, hp, hne, hdec⟩ := hr
  obtain ⟨lbl, hlbl⟩ := Option.isSome_iff_exists.mp hdec
  have hstep : readRecord dec (encodeRaw r ++ tail)
      = .ok (.record (decodedOf dec r) tail) := by
    rw [readRecord_encodeRaw dec r tail hw hh hp]
    simp [hlbl, toimageL_splitRows r.height r.width r.payload hp hne, decodedOf]
  exact load_gnt_file_record dec _ _ _ hstep

/-- Decoding a concatenation of well-formed encoded records followed by any
tail yields exactly those records in order and continues on the tail. -/
theorem load_gnt_file_flatten (dec : Nat → Nat → Option String)
    (recs : List RawRecord) (tail : List Nat)
    (h : ∀ r ∈ recs, wellFormed dec r) :
    load_gnt_file dec ((recs.map encodeRaw).flatten ++ tail) =
      (recs.map (decodedOf dec) ++ (load_gnt_file dec tail).1,
        (load_gnt_file dec tail).2) := by
  induction recs with
  | nil => simp
  | cons r rs ih =>
    have h1 : wellFormed dec r := h r (by simp)
    have h2 : ∀ x ∈ rs, wellFormed dec x := fun x hx => h x (by simp [hx])
    simp only [List.map_cons, List.flatten_cons, List.append_assoc]
    rw [load_gnt_file_cons dec r _ h1, ih h2]
    simp

/-- A complete header followed by strictly too few payload bytes makes the
payload `struct.unpack` fail. -/
theorem readRecord_truncated (dec : Nat → Nat → Option String)
    (a b c d b1 b2 w hgt : Nat) (payload : List Nat)
    (hw : w < 65536) (hh : hgt < 65536) (hp : payload.length < hgt * w) :
    readRecord dec ([a, b, c, d] ++ [b1, b2] ++ u16le w ++ u16le hgt ++ payload) =
      .error .structError := by
  have t4 : ([a, b, c, d] ++ ([b1, b2] ++ (u16le w ++ (u16le hgt ++ payload)))).take 4
      = [a, b, c, d] := List.take_left' rfl
  have d4 : ([a, b, c, d] ++ ([b1, b2] ++ (u16le w ++ (u16le hgt ++ payload)))).drop 4
      = [b1, b2] ++ (u16le w ++ (u16le hgt ++ payload)) := List.drop_left' rfl
  have t2a : ([b1, b2] ++ (u16le w ++ (u16le hgt ++ payload))).take 2 = [b1, b2] :=
    List.take_left' rfl
  have d2a : ([b1, b2] ++ (u16le w ++ (u16le hgt ++ payload))).drop 2
      = u16le w ++ (u16le hgt ++ payload) := List.drop_left' rfl
  have t2b : (u16le w ++ (u16le hgt ++ payload)).take 2 = u16le w := List.take_left' rfl
  have d2b : (u16le w ++ (u16le hgt ++ payload)).drop 2 = u16le hgt ++ payload :=
    List.drop_left' rfl
  have t2c : (u16le hgt ++ payload).take 2 = u16le hgt := List.take_left' rfl
  have d2c : (u16le hgt ++ payload).drop 2 = payload := List.drop_left' rfl
  have tp : payload.take (hgt * w) = payload := List.take_of_length_le (by omega)
  have hwv : w % 256 + 256 * (w / 256 % 256) = w := by omega
  have hhv : hgt % 256 + 256 * (hgt / 256 % 256) = hgt := by omega
  have hne : payload.length ≠ hgt * w := by omega
  unfold readRecord
  simp only [List.append_assoc]
  rw [t4, d4]
  simp [t2a, d2a, t2b, d2b, t2c, d2c, u16le, unpackU32LE, unpackCC, unpackU16LE,
    unpackBytes, hwv, hhv, tp, hne]

/-- A stream of 1 to 3 bytes at a record boundary: `f.read(4)` returns a
non-empty short buffer, so the `"<I"` unpack raises `struct.error` instead of
a clean break. -/
theorem readRecord_short (dec : Nat → Nat → Option String) (s : List Nat)
    (h1 : 1 ≤ s.length) (h3 : s.length ≤ 3) :
    readRecord dec s = .error .structError := by
  have ht : s.take 4 = s := List.take_of_length_le (by omega)
  have hne : s ≠ [] := List.length_pos.mp (by omega)
  have hu : unpackU32LE s = .error .structError := by
    rcases s with _ | ⟨x, _ | ⟨y, _ | ⟨z, _ | ⟨u, t⟩⟩⟩⟩
    · simp at h1
    · rfl
    · rfl
    · rfl
    · simp only [List.length_cons] at h3
      omega
  unfold readRecord
  rw [ht, if_neg hne, hu]

/-- A list of length 4 is a 4-element literal. -/
theorem length_four_eq (l : List Nat) (h : l.length = 4) :
    ∃ a b c d, l = [a, b, c, d] := by
  rcases l with _ | ⟨a, l⟩
  · simp at h
  rcases l with _ | ⟨b, l⟩
  · simp at h
  rcases l with _ | ⟨c, l⟩
  · simp at h
  rcases l with _ | ⟨d, l⟩
  · simp at h
  rcases l with _ | ⟨e, l⟩
  · exact ⟨a, b, c, d, rfl⟩
  · simp only [List.length_cons] at h
    omega

/-- Two streams are identical except for the values stored in the 4-byte
`packed_length` fields of their (structurally well-formed) records; any
shared remainder — including a malformed one — is covered by `same`. -/
inductive LenEquiv : List Nat → List Nat → Prop where
  | same (s : List Nat) : LenEquiv s s
  | record (lenA lenB : List Nat) (b1 b2 w hgt : Nat)
      (payload rest₁ rest₂ : List Nat) :
      lenA.length = 4 → lenB.length = 4 → w < 65536 → hgt < 65536 →
      payload.length = hgt * w → LenEquiv rest₁ rest₂ →
      LenEquiv (lenA ++ [b1, b2] ++ u16le w ++ u16le hgt ++ payload ++ rest₁)
               (lenB ++ [b1, b2] ++ u16le w ++ u16le hgt ++ payload ++ rest₂)

/-- Each yielded record consumed at least its 10 header bytes, so on a stream
of at most `n` bytes at most `n / 10` records are produced. -/
theorem load_gnt_file_count (dec : Nat → Nat → Option String) :
    ∀ (n : Nat) (s : List Nat), s.length ≤ n →
      10 * (load_gnt_file dec s).1.length ≤ s.length := by
  intro n
  induction n with
  | zero =>
    intro s hs
    have hs0 : s = [] := List.length_eq_zero.mp (by omega)
    subst hs0
    rw [load_gnt_file_nil]
    simp
  | succ n ih =>
    intro s hs
    cases hres : readRecord dec s with
    | error e => simp [load_gnt_file_error dec s e hres]
    | ok sr =>
      cases sr with
      | eof => simp [load_gnt_file_eof dec s hres]
      | record r rest =>
        rw [load_gnt_file_record dec s r rest hres]
        have h10 := readRecord_length dec s r rest hres
        have hr := ih rest (by omega)
        simp only [List.length_cons]
        omega

/-! ## Name resolution in `CASIA.__init__` and `CASIA.load_dataset`

`src/CASIA.py` references `get_all_datasets` (line 26) and `load_gnt_file`
(line 133) as free names.  Python resolves a free name inside a method body
against the local scope, then the module's global scope, then the builtins;
methods of a class are attributes of the class object and are *not* module
globals. -/

/-- The names bound at module scope of `src/CASIA.py`: the imported names
(lines 1-16), `__author__` (line 18), and the two classes defined in the
module. -/
def moduleNames : List String :=
  ["glob", "struct", "zipfile", "decode", "ceil", "listdir", "makedirs",
   "remove", "isdir", "isfile", "clock", "urlretrieve", "np", "toimage",
   "tqdm", "__author__", "CASIA", "DLProgress"]

/-- The Python builtin scope, last in the lookup chain.  Listed are the
standard builtin callables; what the theorems need is only that neither
`get_all_datasets` nor `load_gnt_file` is among them, which holds of the full
builtin namespace of every CPython 3 release. -/
def builtinNames : List String :=
  ["abs", "all", "any", "ascii", "bin", "bool", "bytearray", "bytes",
   "callable", "chr", "classmethod", "complex", "delattr", "dict", "dir",
   "divmod", "enumerate", "filter", "float", "format", "frozenset",
   "getattr", "hasattr", "hash", "help", "hex", "id", "input", "int",
   "isinstance", "issubclass", "iter", "len", "list", "map", "max",
   "memoryview", "min", "next", "object", "oct", "open", "ord", "pow",
   "print", "property", "range", "repr", "reversed", "round", "set",
   "setattr", "slice", "sorted", "staticmethod", "str", "sum", "super",
   "tuple", "type", "vars", "zip"]

/-- Python free-name resolution inside a method body of this module:
local scope, then module globals, then builtins. -/
def resolveName (localNames : List String) (name : String) : Bool :=
  localNames.contains name || moduleNames.contains name ||
    builtinNames.contains name

/-- A Python exception relevant to the constructor and iteration paths. -/
inductive PyError where
  | nameError (n : String)
  deriving Repr, DecidableEq

/-- The first statement of `CASIA.__init__` (line 26) evaluates
`get_all_datasets()`.  The only local name at that point is `self`
(`self.datasets` is assigned only afterwards, at line 28, and is an attribute
in any case, not a name).  If the lookup fails, the constructor raises
`NameError` before anything else happens; were the name resolvable, execution
would continue into the assert and the `self.datasets` assignment (plain
success here, unreachable below). -/
def CASIA_init : Except PyError Unit :=
  if resolveName ["self"] "get_all_datasets" then .ok ()
  else .error (.nameError "get_all_datasets")

/-- The inner loop body of `CASIA.load_dataset` (line 133) evaluates
`load_gnt_file(path)` with locals `self`, `dataset` and `path`.  The static
method `CASIA.load_gnt_file` is an attribute of the class object, not a
module-level name, so only the free-name lookup decides this call. -/
def load_dataset_step : Except PyError Unit :=
  if resolveName ["self", "dataset", "path"] "load_gnt_file" then .ok ()
  else .error (.nameError "load_gnt_file")

/-- C1: the round-trip claim fails on the code at a concrete input.  The
1×2 record with label bytes 0xC4 0xE3 and payload bytes [9, 7], encoded with
the GNT layout, decodes to one record with the correct label, width and
height — but its pixel bytes are [255, 0], not the encoded [9, 7]:
`toimage`'s `bytescale` rescales the `int64` array from its per-record
min/max to 0..255 before the image is yielded, so the yielded pixel bytes
are never compared-equal to the payload here. -/
theorem gnt_roundtrip_bytescaled :
    load_gnt_file gb2312Sample (encodeRaw ⟨13, 196, 227, 1, 2, [9, 7]⟩) =
      ([⟨"你", 1, 2, [[255], [0]]⟩], none) ∧
    ∀ rec ∈ (load_gnt_file gb2312Sample (encodeRaw ⟨13, 196, 227, 1, 2, [9, 7]⟩)).1,
      rec.image.flatten ≠ [9, 7] := by
  have hwf : wellFormed gb2312Sample ⟨13, 196, 227, 1, 2, [9, 7]⟩ :=
    ⟨by norm_num, by norm_num, rfl, by decide, by decide⟩
  have h := load_gnt_file_cons gb2312Sample ⟨13, 196, 227, 1, 2, [9, 7]⟩ [] hwf
  rw [List.append_nil] at h
  have himg : decodedOf gb2312Sample ⟨13, 196, 227, 1, 2, [9, 7]⟩ =
      ⟨"你", 1, 2, [[255], [0]]⟩ := by
    have h9 : bytescalePixel 7 9 9 = 255 := bytescalePixel_max_val 7 9 (by norm_num)
    have h7 : bytescalePixel 7 9 7 = 0 := bytescalePixel_min_val 7 9
    have hsplit : splitRows 2 1 [9, 7] = [[9], [7]] := rfl
    have hmin : (([9, 7] : List Nat).min?.getD 0) = 7 := rfl
    have hmax : (([9, 7] : List Nat).max?.getD 0) = 9 := rfl
    simp [decodedOf, gb2312Sample, hsplit, hmin, hmax, h9, h7]
  rw [h, load_gnt_file_nil, himg]
  refine ⟨rfl, ?_⟩
  intro rec hrec
  simp at hrec
  subst hrec
  decide

/-- Two concrete well-formed records used by witnesses and counterexamples. -/
def wRecs : List RawRecord :=
  [⟨11, 196, 227, 1, 1, [5]⟩, ⟨12, 196, 227, 2, 1, [6, 7]⟩]

/-- The image the original claim says each record carries: the payload bytes
themselves, read row-major as height rows of width pixels. -/
def claimImageOf (r : RawRecord) : List (List Nat) :=
  splitRows r.height r.width r.payload

/-- C2 counterexample: on the concrete two-record stream `wRecs`, decoding
does yield two records, in order, with the right labels and dimensions — but
their pixel content is the per-record bytescale of the payload ([5] becomes
[0]; [6, 7] becomes [0, 255]), not the payload bytes the claim asserts, so
the claim as stated is false at this input. -/
theorem gnt_sequencing_counterexample :
    load_gnt_file gb2312Sample (wRecs.map encodeRaw).flatten =
      ([⟨"你", 1, 1, [[0]]⟩, ⟨"你", 2, 1, [[0, 255]]⟩], none) ∧
    load_gnt_file gb2312Sample (wRecs.map encodeRaw).flatten ≠
      (wRecs.map (fun r =>
        ({ label := (gb2312Sample r.b1 r.b2).getD "", width := r.width,
           height := r.height, image := claimImageOf r } : GntRecord)), none) := by
  have hyp : ∀ r ∈ wRecs, wellFormed gb2312Sample r := by
    intro r hr
    simp only [wRecs, List.mem_cons, List.not_mem_nil, or_false] at hr
    rcases hr with rfl | rfl
    · exact ⟨by norm_num, by norm_num, rfl, by decide, by decide⟩
    · exact ⟨by norm_num, by norm_num, rfl, by decide, by decide⟩
  have hd1 : decodedOf gb2312Sample ⟨11, 196, 227, 1, 1, [5]⟩ = ⟨"你", 1, 1, [[0]]⟩ := by
    have h5 : bytescalePixel 5 5 5 = 0 := bytescalePixel_min_val 5 5
    have hsplit : splitRows 1 1 [5] = [[5]] := rfl
    have hmin : (([5] : List Nat).min?.getD 0) = 5 := rfl
    have hmax : (([5] : List Nat).max?.getD 0) = 5 := rfl
    simp [decodedOf, gb2312Sample, hsplit, hmin, hmax, h5]
  have hd2 : decodedOf gb2312Sample ⟨12, 196, 227, 2, 1, [6, 7]⟩ =
      ⟨"你", 2, 1, [[0, 255]]⟩ := by
    have h6 : bytescalePixel 6 7 6 = 0 := bytescalePixel_min_val 6 7
    have h7 : bytescalePixel 6 7 7 = 255 := bytescalePixel_max_val 6 7 (by norm_num)
    have hsplit : splitRows 1 2 [6, 7] = [[6, 7]] := rfl
    have hmin : (([6, 7] : List Nat).min?.getD 0) = 6 := rfl
    have hmax : (([6, 7] : List Nat).max?.getD 0) = 7 := rfl
    simp [decodedOf, gb2312Sample, hsplit, hmin, hmax, h6, h7]
  have heval : load_gnt_file gb2312Sample (wRecs.map encodeRaw).flatten =
      ([⟨"你", 1, 1, [[0]]⟩, ⟨"你", 2, 1, [[0, 255]]⟩], none) := by
    have hj := load_gnt_file_flatten gb2312Sample wRecs [] hyp
    rw [List.append_nil] at hj
    rw [hj, load_gnt_file_nil]
    simp [wRecs, hd1, hd2]
  refine ⟨heval, ?_⟩
  rw [heval]
  decide

/-- C2 (amended): Sequencing and image layout — a stream that is the
concatenation of N well-formed records (valid label bytes, 16-bit dimensions,
payload of exactly `width*height` bytes, at least one pixel) decodes to
exactly those N records in order with clean termination; each record's image
has the height as its outer dimension (number of rows) and width pixels in
every row, the rows being the row-major payload after the program's
per-record bytescale rescaling rather than the raw payload bytes. -/
theorem gnt_sequencing_bytescaled (dec : Nat → Nat → Option String)
    (recs : List RawRecord) (h : ∀ r ∈ recs, wellFormed dec r) :
    load_gnt_file dec (recs.map encodeRaw).flatten =
      (recs.map (decodedOf dec), none) ∧
    ∀ r ∈ recs, (decodedOf dec r).image.length = r.height ∧
      ∀ row ∈ (decodedOf dec r).image, row.length = r.width := by
  constructor
  · have hj := load_gnt_file_flatten dec recs [] h
    rw [List.append_nil] at hj
    rw [hj, load_gnt_file_nil]
    simp
  · intro r hr
    obtain ⟨hw, hh, hp, hne, _⟩ := h r hr
    constructor
    · simp [decodedOf, splitRows_length]
    · intro row hrow
      simp only [decodedOf, List.mem_map] at hrow
      obtain ⟨row0, hrow0, rfl⟩ := hrow
      simp [splitRows_row_length r.height r.width r.payload hp row0 hrow0]

theorem gnt_sequencing_bytescaled_witness :
    (∀ r ∈ wRecs, wellFormed gb2312Sample r) ∧
    (load_gnt_file gb2312Sample (wRecs.map encodeRaw).flatten =
        (wRecs.map (decodedOf gb2312Sample), none) ∧
      ∀ r ∈ wRecs, (decodedOf gb2312Sample r).image.length = r.height ∧
        ∀ row ∈ (decodedOf gb2312Sample r).image, row.length = r.width) := by
  have hyp : ∀ r ∈ wRecs, wellFormed gb2312Sample r := by
    intro r hr
    simp only [wRecs, List.mem_cons, List.not_mem_nil, or_false] at hr
    rcases hr with rfl | rfl
    · exact ⟨by norm_num, by norm_num, rfl, by decide, by decide⟩
    · exact ⟨by norm_num, by norm_num, rfl, by decide, by decide⟩
  exact ⟨hyp, gnt_sequencing_bytescaled gb2312Sample wRecs hyp⟩

/-- C3: Truncation detection — a complete length/label/dimension header
followed by strictly fewer than `width*height` payload bytes makes
`load_gnt_file` raise the truncated-stream error (`struct.error` from the
payload unpack): no record with a short image is yielded and the loop does
not terminate cleanly. -/
theorem gnt_truncation (dec : Nat → Nat → Option String)
    (lenField b1 b2 w hgt : Nat) (payload : List Nat)
    (hw : w < 65536) (hh : hgt < 65536) (hp : payload.length < hgt * w) :
    load_gnt_file dec
        (u32le lenField ++ [b1, b2] ++ u16le w ++ u16le hgt ++ payload) =
      ([], some DecodeError.structError) := by
  have hstep : readRecord dec
      (u32le lenField ++ [b1, b2] ++ u16le w ++ u16le hgt ++ payload) =
        .error .structError := by
    simp only [u32le]
    exact readRecord_truncated dec _ _ _ _ b1 b2 w hgt payload hw hh hp
  exact load_gnt_file_error dec _ _ hstep

theorem gnt_truncation_witness :
    (2 : Nat) < 65536 ∧ (1 : Nat) < 65536 ∧ ([9] : List Nat).length < 1 * 2 ∧
    load_gnt_file gb2312Sample (u32le 13 ++ [196, 227] ++ u16le 2 ++ u16le 1 ++ [9]) =
      ([], some DecodeError.structError) :=
  ⟨by norm_num, by norm_num, by norm_num,
    gnt_truncation gb2312Sample 13 196 227 2 1 [9] (by norm_num) (by norm_num)
      (by norm_num)⟩

/-- C4: Clean termination only at a record boundary — the empty stream yields
zero records and no error, and a stream that leaves 1 to 3 bytes after any
number of well-formed records does not terminate cleanly: the short
`f.read(4)` buffer is not `b''`, so the `"<I"` unpack raises instead. -/
theorem gnt_clean_termination (dec : Nat → Nat → Option String) :
    load_gnt_file dec [] = ([], none) ∧
    ∀ (recs : List RawRecord) (rest : List Nat),
      (∀ r ∈ recs, wellFormed dec r) → 1 ≤ rest.length → rest.length ≤ 3 →
      load_gnt_file dec ((recs.map encodeRaw).flatten ++ rest) =
        (recs.map (decodedOf dec), some DecodeError.structError) := by
  refine ⟨load_gnt_file_nil dec, ?_⟩
  intro recs rest h h1 h3
  rw [load_gnt_file_flatten dec recs rest h,
    load_gnt_file_error dec rest _ (readRecord_short dec rest h1 h3)]
  simp

theorem gnt_clean_termination_witness :
    (load_gnt_file gb2312Sample [] = ([], none) ∧
      ∀ (recs : List RawRecord) (rest : List Nat),
        (∀ r ∈ recs, wellFormed gb2312Sample r) → 1 ≤ rest.length →
        rest.length ≤ 3 →
        load_gnt_file gb2312Sample ((recs.map encodeRaw).flatten ++ rest) =
          (recs.map (decodedOf gb2312Sample), some DecodeError.structError)) ∧
    (∀ r ∈ wRecs, wellFormed gb2312Sample r) ∧
    1 ≤ ([0, 1] : List Nat).length ∧ ([0, 1] : List Nat).length ≤ 3 ∧
    load_gnt_file gb2312Sample ((wRecs.map encodeRaw).flatten ++ [0, 1]) =
      (wRecs.map (decodedOf gb2312Sample), some DecodeError.structError) := by
  have hyp : ∀ r ∈ wRecs, wellFormed gb2312Sample r := by
    intro r hr
    simp only [wRecs, List.mem_cons, List.not_mem_nil, or_false] at hr
    rcases hr with rfl | rfl
    · exact ⟨by norm_num, by norm_num, rfl, by decide, by decide⟩
    · exact ⟨by norm_num, by norm_num, rfl, by decide, by decide⟩
  refine ⟨gnt_clean_termination gb2312Sample, hyp, by norm_num, by norm_num, ?_⟩
  exact (gnt_clean_termination gb2312Sample).2 wRecs [0, 1] hyp (by norm_num) (by norm_num)

/-- C5: Label decoding — a record whose two raw label bytes decode as one
GB2312 double-byte sequence (e.g. 0xC4 0xE3 for "你") is yielded with exactly
that text as its label; the two raw bytes are concatenated and decoded as one
sequence (`dec` receives both bytes of `raw_label[0] + raw_label[1]`).  The
record must hold at least one pixel to be yielded at all, since a zero-size
image raises later, in `toimage` (see C8). -/
theorem gnt_label_decoding (dec : Nat → Nat → Option String)
    (lenField b1 b2 w hgt : Nat) (payload rest : List Nat) (c : String)
    (hw : w < 65536) (hh : hgt < 65536) (hp : payload.length = hgt * w)
    (hne : payload ≠ []) (hdec : dec b1 b2 = some c) :
    ∃ img, readRecord dec
        (u32le lenField ++ [b1, b2] ++ u16le w ++ u16le hgt ++ payload ++ rest) =
      .ok (.record ⟨c, w, hgt, img⟩ rest) := by
  refine ⟨(splitRows hgt w payload).map
    (List.map (bytescalePixel (payload.min?.getD 0) (payload.max?.getD 0))), ?_⟩
  simp only [u32le]
  rw [readRecord_encoded dec _ _ _ _ b1 b2 w hgt payload rest hw hh hp]
  simp [hdec, toimageL_splitRows hgt w payload hp hne]

theorem gnt_label_decoding_witness :
    (1 : Nat) < 65536 ∧ (1 : Nat) < 65536 ∧ ([7] : List Nat).length = 1 * 1 ∧
    ([7] : List Nat) ≠ [] ∧ gb2312Sample 196 227 = some "你" ∧
    ∃ img, readRecord gb2312Sample
        (u32le 13 ++ [196, 227] ++ u16le 1 ++ u16le 1 ++ [7] ++ []) =
      .ok (.record ⟨"你", 1, 1, img⟩ []) :=
  ⟨by norm_num, by norm_num, by decide, by decide, by decide,
    gnt_label_decoding gb2312Sample 13 196 227 1 1 [7] [] "你" (by norm_num)
      (by norm_num) (by decide) (by decide) (by decide)⟩

/-- C6: Invalid label aborts the sequence — if some record's two label bytes
do not decode, the error propagates and no further records come from that
stream; the records decoded before the failing one have already been
delivered (they are the yielded prefix), and nothing after the bad record or
in the remaining tail is produced. -/
theorem gnt_invalid_label_aborts (dec : Nat → Nat → Option String)
    (recs : List RawRecord) (bad : RawRecord) (tail : List Nat)
    (h : ∀ r ∈ recs, wellFormed dec r)
    (hw : bad.width < 65536) (hh : bad.height < 65536)
    (hp : bad.payload.length = bad.height * bad.width)
    (hbad : dec bad.b1 bad.b2 = none) :
    load_gnt_file dec ((recs.map encodeRaw).flatten ++ (encodeRaw bad ++ tail)) =
      (recs.map (decodedOf dec), some DecodeError.labelDecodeError) := by
  rw [load_gnt_file_flatten dec recs _ h]
  have hstep : readRecord dec (encodeRaw bad ++ tail) = .error .labelDecodeError := by
    rw [readRecord_encodeRaw dec bad tail hw hh hp, hbad]
  rw [load_gnt_file_error dec _ _ hstep]
  simp

theorem gnt_invalid_label_aborts_witness :
    (∀ r ∈ wRecs, wellFormed gb2312Sample r) ∧
    (RawRecord.width ⟨20, 1, 1, 1, 1, [8]⟩ < 65536 ∧
      RawRecord.height ⟨20, 1, 1, 1, 1, [8]⟩ < 65536 ∧
      (RawRecord.payload ⟨20, 1, 1, 1, 1, [8]⟩).length =
        RawRecord.height ⟨20, 1, 1, 1, 1, [8]⟩ *
          RawRecord.width ⟨20, 1, 1, 1, 1, [8]⟩ ∧
      gb2312Sample 1 1 = none) ∧
    load_gnt_file gb2312Sample
        ((wRecs.map encodeRaw).flatten ++ (encodeRaw ⟨20, 1, 1, 1, 1, [8]⟩ ++ [9, 9])) =
      (wRecs.map (decodedOf gb2312Sample), some DecodeError.labelDecodeError) := by
  have hyp : ∀ r ∈ wRecs, wellFormed gb2312Sample r := by
    intro r hr
    simp only [wRecs, List.mem_cons, List.not_mem_nil, or_false] at hr
    rcases hr with rfl | rfl
    · exact ⟨by norm_num, by norm_num, rfl, by decide, by decide⟩
    · exact ⟨by norm_num, by norm_num, rfl, by decide, by decide⟩
  refine ⟨hyp, ⟨by norm_num, by norm_num, by decide, by decide⟩, ?_⟩
  exact gnt_invalid_label_aborts gb2312Sample wRecs ⟨20, 1, 1, 1, 1, [8]⟩ [9, 9] hyp
    (by norm_num) (by norm_num) (by decide) (by decide)

/-- C7: `packed_length` is vestigial — two streams identical except for the
values stored in the 4-byte `packed_length` fields of their records decode to
identical outcomes: same records (labels, dimensions, pixels) and the same
success or error; the field's value is never used to skip bytes or reject a
record. -/
theorem gnt_packed_length_vestigial (dec : Nat → Nat → Option String)
    (s t : List Nat) (h : LenEquiv s t) :
    load_gnt_file dec s = load_gnt_file dec t := by
  induction h with
  | same s => rfl
  | record lenA lenB b1 b2 w hgt payload rest₁ rest₂ hA hB hw hh hp hrest ih =>
    obtain ⟨a1, a2, a3, a4, rfl⟩ := length_four_eq lenA hA
    obtain ⟨c1, c2, c3, c4, rfl⟩ := length_four_eq lenB hB
    cases hdec : dec b1 b2 with
    | none =>
      have hL := load_gnt_file_error dec
        ([a1, a2, a3, a4] ++ [b1, b2] ++ u16le w ++ u16le hgt ++ payload ++ rest₁)
        DecodeError.labelDecodeError
        (by rw [readRecord_encoded dec a1 a2 a3 a4 b1 b2 w hgt payload rest₁ hw hh hp,
          hdec])
      have hR := load_gnt_file_error dec
        ([c1, c2, c3, c4] ++ [b1, b2] ++ u16le w ++ u16le hgt ++ payload ++ rest₂)
        DecodeError.labelDecodeError
        (by rw [readRecord_encoded dec c1 c2 c3 c4 b1 b2 w hgt payload rest₂ hw hh hp,
          hdec])
      rw [hL, hR]
    | some lbl =>
      cases himg : toimageL (splitRows hgt w payload) with
      | error e =>
        have hL := load_gnt_file_error dec
          ([a1, a2, a3, a4] ++ [b1, b2] ++ u16le w ++ u16le hgt ++ payload ++ rest₁) e
          (by rw [readRecord_encoded dec a1 a2 a3 a4 b1 b2 w hgt payload rest₁ hw hh hp,
            hdec, himg])
        have hR := load_gnt_file_error dec
          ([c1, c2, c3, c4] ++ [b1, b2] ++ u16le w ++ u16le hgt ++ payload ++ rest₂) e
          (by rw [readRecord_encoded dec c1 c2 c3 c4 b1 b2 w hgt payload rest₂ hw hh hp,
            hdec, himg])
        rw [hL, hR]
      | ok img =>
        have hL := load_gnt_file_record dec
          ([a1, a2, a3, a4] ++ [b1, b2] ++ u16le w ++ u16le hgt ++ payload ++ rest₁)
          ⟨lbl, w, hgt, img⟩ rest₁
          (by rw [readRecord_encoded dec a1 a2 a3 a4 b1 b2 w hgt payload rest₁ hw hh hp,
            hdec, himg])
        have hR := load_gnt_file_record dec
          ([c1, c2, c3, c4] ++ [b1, b2] ++ u16le w ++ u16le hgt ++ payload ++ rest₂)
          ⟨lbl, w, hgt, img⟩ rest₂
          (by rw [readRecord_encoded dec c1 c2 c3 c4 b1 b2 w hgt payload rest₂ hw hh hp,
            hdec, himg])
        rw [hL, hR, ih]

theorem gnt_packed_length_vestigial_witness :
    LenEquiv ([9, 0, 0, 0] ++ [196, 227] ++ u16le 1 ++ u16le 1 ++ [7] ++ [0])
             ([3, 1, 2, 250] ++ [196, 227] ++ u16le 1 ++ u16le 1 ++ [7] ++ [0]) ∧
    load_gnt_file gb2312Sample
        ([9, 0, 0, 0] ++ [196, 227] ++ u16le 1 ++ u16le 1 ++ [7] ++ [0]) =
      load_gnt_file gb2312Sample
        ([3, 1, 2, 250] ++ [196, 227] ++ u16le 1 ++ u16le 1 ++ [7] ++ [0]) := by
  have hequiv : LenEquiv
      ([9, 0, 0, 0] ++ [196, 227] ++ u16le 1 ++ u16le 1 ++ [7] ++ [0])
      ([3, 1, 2, 250] ++ [196, 227] ++ u16le 1 ++ u16le 1 ++ [7] ++ [0]) :=
    LenEquiv.record [9, 0, 0, 0] [3, 1, 2, 250] 196 227 1 1 [7] [0] [0] rfl rfl
      (by norm_num) (by norm_num) rfl (LenEquiv.same [0])
  exact ⟨hequiv, gnt_packed_length_vestigial gb2312Sample _ _ hequiv⟩

/-- C8: the boundary-dimension claim fails on the code for the zero cases.
A width=1, height=1 record does decode to a single-pixel image with clean
termination (its pixel bytescaled to 0), but a width=0 record and a height=0
record — although their headers parse and zero payload bytes are read — make
the program crash: `bytescale` inside `toimage` reduces (`.min()`) the
zero-size array and raises `ValueError`, so the generator aborts instead of
yielding an empty image or continuing. -/
theorem gnt_boundary_dimensions_crash :
    load_gnt_file gb2312Sample (encodeRaw ⟨21, 196, 227, 1, 1, [5]⟩) =
      ([⟨"你", 1, 1, [[0]]⟩], none) ∧
    load_gnt_file gb2312Sample (u32le 21 ++ [196, 227] ++ u16le 0 ++ u16le 4) =
      ([], some DecodeError.valueError) ∧
    load_gnt_file gb2312Sample (u32le 21 ++ [196, 227] ++ u16le 3 ++ u16le 0) =
      ([], some DecodeError.valueError) := by
  refine ⟨?_, ?_, ?_⟩
  · have hwf : wellFormed gb2312Sample ⟨21, 196, 227, 1, 1, [5]⟩ :=
      ⟨by norm_num, by norm_num, rfl, by decide, by decide⟩
    have h := load_gnt_file_cons gb2312Sample ⟨21, 196, 227, 1, 1, [5]⟩ [] hwf
    rw [List.append_nil] at h
    have himg : decodedOf gb2312Sample ⟨21, 196, 227, 1, 1, [5]⟩ =
        ⟨"你", 1, 1, [[0]]⟩ := by
      have h5 : bytescalePixel 5 5 5 = 0 := bytescalePixel_min_val 5 5
      have hsplit : splitRows 1 1 [5] = [[5]] := rfl
      have hmin : (([5] : List Nat).min?.getD 0) = 5 := rfl
      have hmax : (([5] : List Nat).max?.getD 0) = 5 := rfl
      simp [decodedOf, gb2312Sample, hsplit, hmin, hmax, h5]
    rw [h, load_gnt_file_nil, himg]
  · have h := readRecord_encoded gb2312Sample 21 0 0 0 196 227 0 4 [] []
      (by norm_num) (by norm_num) (by simp)
    simp only [List.append_nil] at h
    have e1 : u32le 21 = [21, 0, 0, 0] := rfl
    have hstep : readRecord gb2312Sample
        (u32le 21 ++ [196, 227] ++ u16le 0 ++ u16le 4) = .error .valueError := by
      rw [e1, h]
      rfl
    rw [load_gnt_file_error gb2312Sample _ _ hstep]
  · have h := readRecord_encoded gb2312Sample 21 0 0 0 196 227 3 0 [] []
      (by norm_num) (by norm_num) (by simp)
    simp only [List.append_nil] at h
    have e1 : u32le 21 = [21, 0, 0, 0] := rfl
    have hstep : readRecord gb2312Sample
        (u32le 21 ++ [196, 227] ++ u16le 3 ++ u16le 0) = .error .valueError := by
      rw [e1, h]
      rfl
    rw [load_gnt_file_error gb2312Sample _ _ hstep]

/-- C9: Finiteness — on every finite byte stream the decode loop terminates
(the embedding is total by well-founded recursion) and yields a finite
sequence: each yielded record consumed at least its 10 header bytes, so at
most `length / 10` records are produced. -/
theorem gnt_finiteness (dec : Nat → Nat → Option String) (s : List Nat) :
    10 * (load_gnt_file dec s).1.length ≤ s.length :=
  load_gnt_file_count dec s.length s (Nat.le_refl _)

/-- C10: The instance-level interface of the `CASIA` class is unusable —
`CASIA()` raises `NameError` at its first statement (line 26) because
`get_all_datasets` is a free name bound neither locally nor at module scope
nor as a builtin, before `self.datasets` is assigned; the iteration of
`CASIA.load_dataset` that reaches a `.gnt` file (line 133) likewise raises
`NameError` on the free name `load_gnt_file`; calling the static decode logic
directly does succeed (here: on the empty stream). -/
theorem casia_instance_unusable :
    CASIA_init = .error (.nameError "get_all_datasets") ∧
    load_dataset_step = .error (.nameError "load_gnt_file") ∧
    load_gnt_file gb2312Sample [] = ([], none) :=
  ⟨rfl, rfl, load_gnt_file_nil gb2312Sample⟩

end PyCasia
